import Mathlib

/-!
Shallow embedding of the svg_to_ico crate (src/lib.rs): the rasterizer
(`rasterize`), the container encoder (`create_ico` and the ico-crate
serialization it drives), and the top-level pipeline (`svg_to_ico`).

Machine floats are idealized as exact rationals; machine integers are `Nat`
with explicit truncation where the code truncates.  Fallible Rust code is
embedded with an explicit `Outcome` type that distinguishes `Ok`, `Err` and
panics (the source uses `.expect(..)`, which can panic).  File-system effects
are embedded as explicit state passing over a small `FS` record.
-/

namespace SvgToIco

/-- A file-system path, as its list of components. -/
abbrev FilePath0 := List String

/-- Explicit file-system state: the set of existing directories and the files
with their byte contents.  Bytes are `Nat`s (values are kept below 256 by the
producers that matter here). -/
structure FS where
  dirs : List FilePath0
  files : List (FilePath0 × List Nat)
deriving DecidableEq

/-- Look a file up (`std::fs::read`): `some` content or `none` when absent. -/
def FS.read (fs : FS) (p : FilePath0) : Option (List Nat) :=
  (fs.files.find? (fun f => f.fst == p)).map (fun f => f.snd)

/-- Create/truncate-and-write a file (`File::create` followed by a full
write). The new binding shadows any older one. -/
def FS.writeFile (fs : FS) (p : FilePath0) (content : List Nat) : FS :=
  { fs with files := (p, content) :: fs.files }

/-- `Path::parent`: `none` for an empty path, otherwise the path without its
last component. -/
def FilePath0.parent (p : FilePath0) : Option FilePath0 :=
  match p with
  | [] => none
  | _ :: _ => some p.dropLast

/-- Model of `std::io::ErrorKind` (only the shape matters here). -/
inductive IoErrorKind where
  | notFound
  | permissionDenied
  | other
deriving DecidableEq

/-- Model of `std::ffi::NulError` (carries a byte position). -/
structure NulErrorData where
  position : Nat
deriving DecidableEq

/-- The crate's public error enum, translated variant-for-variant from
src/lib.rs lines 17-27, including the `NulError` variant whose doc comment
in the source reads "No longer used." -/
inductive Error where
  | IoError : IoErrorKind → Error
  | NulError : NulErrorData → Error
  | ParseError : Error
  | RasterizeError : Error
deriving DecidableEq

/-- Result of running a piece of Rust code: a value, a returned error, or a
panic (with the panic message). -/
inductive Outcome (α : Type) where
  | ok : α → Outcome α
  | err : Error → Outcome α
  | panic : String → Outcome α
deriving DecidableEq

/-- tiny-skia floating-point `Size` (width and height), idealized over ℚ.
In tiny-skia both fields are strictly positive; here the smart constructor
`Size.from_wh` checks that, and theorems carry positivity hypotheses. -/
structure Size where
  width : ℚ
  height : ℚ
deriving DecidableEq

/-- tiny-skia `Size::from_wh`: `Some` only when both dimensions are
strictly positive (the fields are `NonZeroPositiveF32` in the source). -/
def Size.from_wh (w h : ℚ) : Option Size :=
  if 0 < w ∧ 0 < h then some ⟨w, h⟩ else none

/-- tiny-skia `Size::scale_to` (`size_scale` with `expand = false`): scale
`s1` to fit within `to`, preserving aspect ratio. -/
def Size.scale_to (s1 s2 : Size) : Size :=
  let rw := s2.height * s1.width / s1.height
  if s2.width ≤ rw then
    ⟨s2.width, s2.width * s1.height / s1.width⟩
  else
    ⟨rw, s2.height⟩

/-- Largest `u32` value. -/
def u32Max : Nat := 4294967295

/-- Rust `f32::round` on a nonnegative value followed by a saturating
`as u32` cast: round half away from zero, clamp into `[0, u32Max]`. -/
def roundToU32 (q : ℚ) : Nat := min (Int.toNat ⌊q + 1/2⌋) u32Max

/-- tiny-skia `IntSize`: integer pixel dimensions. -/
structure IntSize where
  width : Nat
  height : Nat
deriving DecidableEq

/-- tiny-skia `Size::to_int_size`: round each dimension and clamp it to at
least 1. -/
def Size.to_int_size (s : Size) : IntSize :=
  ⟨max 1 (roundToU32 s.width), max 1 (roundToU32 s.height)⟩

/-- tiny-skia `Transform::from_scale`: a uniform-scaling transform is just
its two scale factors here. -/
structure Transform where
  sx : ℚ
  sy : ℚ

/-- tiny-skia `Transform::from_scale`. -/
def Transform.from_scale (sx sy : ℚ) : Transform := ⟨sx, sy⟩

/-- Modelled from the spec: the parsed vector scene (usvg `Tree`) is opaque
apart from its intrinsic size; its drawing content is embedded as an opaque
byte-producing function consumed by the external renderer. -/
structure Tree where
  size : Size
  paint : Transform → Nat → Nat

/-- Bytes per RGBA pixel. -/
def BYTES_PER_PIXEL : Nat := 4

/-- A tiny-skia `Pixmap`: integer dimensions plus the RGBA byte buffer. -/
structure Pixmap where
  width : Nat
  height : Nat
  data : List Nat
deriving DecidableEq

/-- Modelled from the spec: the external pixel-buffer allocator
(tiny-skia `Pixmap::new`) rejects a zero dimension and absurdly large
allocations (the byte length must fit in 32 bits); otherwise it returns a
zero-initialized (fully transparent) buffer of exactly
`width * height * 4` bytes. -/
def Pixmap.new (w h : Nat) : Option Pixmap :=
  if w = 0 ∨ h = 0 then none
  else if u32Max < w * h * BYTES_PER_PIXEL then none
  else some ⟨w, h, List.replicate (w * h * BYTES_PER_PIXEL) 0⟩

/-- Modelled from the spec: the external rendering capability
(`resvg::render`) fills the pixels of the given buffer from the scene and
transform; it never resizes the buffer (the buffer stays exactly
`width * height * 4` bytes). -/
def resvgRender (svg : Tree) (t : Transform) (p : Pixmap) : Pixmap :=
  { p with data := (List.range (p.width * p.height * BYTES_PER_PIXEL)).map (svg.paint t) }

/-- usvg parsing options; only the DPI is set by this crate. -/
structure Options where
  dpi : ℚ

/-- Modelled from the spec: the external SVG parser (usvg
`Tree::from_data`), a deterministic function of the byte content and the
options, producing a scene with a positive intrinsic size or failing.  The
model reads the intrinsic size from the first two bytes and the drawing
content from the rest. -/
def Tree.from_data (data : List Nat) (opt : Options) : Option Tree :=
  match data with
  | w :: h :: rest =>
    if 0 < w ∧ 0 < h then
      some { size := ⟨(w : ℚ), (h : ℚ)⟩
             paint := fun _ i => rest.getD i 0 }
    else none
  | _ => none

/-- `rasterize` from src/lib.rs lines 94-114, translated statement by
statement.  The `.expect("Unsigned values should always be valid")` on
`Size::from_wh` is a panic when the size is rejected (target height 0). -/
def rasterize (svg : Tree) (height_in_pixels : Nat) : Outcome Pixmap :=
  let target_height : ℚ := height_in_pixels
  match Size.from_wh target_height target_height with
  | none => .panic "Unsigned values should always be valid"
  | some target_size =>
    let scaled_size := svg.size.scale_to target_size
    let sx := scaled_size.width / svg.size.width
    let sy := scaled_size.height / svg.size.height
    let transform := Transform.from_scale sx sy
    let pixmap_size := scaled_size.to_int_size
    match Pixmap.new pixmap_size.width pixmap_size.height with
    | some pixmap => .ok (resvgRender svg transform pixmap)
    | none => .err .RasterizeError

/-- The `ico_entry_sizes.iter().map(|size| rasterize(&svg, *size))
.collect::<Result<Vec<_>, Error>>()` step of `svg_to_ico`: left-to-right,
short-circuiting on the first error (or panic). -/
def rasterizeAll (svg : Tree) (sizes : List Nat) : Outcome (List Pixmap) :=
  match sizes with
  | [] => .ok []
  | s :: rest =>
    match rasterize svg s with
    | .ok p =>
      match rasterizeAll svg rest with
      | .ok ps => .ok (p :: ps)
      | .err e => .err e
      | .panic m => .panic m
    | .err e => .err e
    | .panic m => .panic m

/-- ico-crate `IconImage`: dimensions plus RGBA bytes. -/
structure IconImage where
  width : Nat
  height : Nat
  rgba_data : List Nat
deriving DecidableEq

/-- ico-crate `IconImage::from_rgba_data`. -/
def IconImage.from_rgba_data (w h : Nat) (data : List Nat) : IconImage :=
  ⟨w, h, data⟩

/-- Modelled from the spec: the per-entry payload encoding chosen by the
external ico crate.  The payload is a self-describing block: a sub-header
recording width, height, bit depth (32) and plane count (1), followed by
the RGBA bytes.  It is never empty. -/
def encodePayload (img : IconImage) : List Nat :=
  [img.width, img.height, 32, 1] ++ img.rgba_data

/-- ico-crate `IconDirEntry`: per-entry metadata plus the encoded payload
block it owns. -/
structure IconDirEntry where
  width : Nat
  height : Nat
  bpp : Nat
  planes : Nat
  data : List Nat
deriving DecidableEq

/-- ico-crate `IconDirEntry::encode`: encode one image into an entry
carrying its payload (the model's payload encoding cannot fail). -/
def IconDirEntry.encode (img : IconImage) : IconDirEntry :=
  ⟨img.width, img.height, 32, 1, encodePayload img⟩

/-- ico-crate `IconDir`: the ordered entry list (resource type is fixed to
`Icon` by this crate). -/
structure IconDir where
  entries : List IconDirEntry
deriving DecidableEq

/-- ico-crate `IconDir::new`. -/
def IconDir.new : IconDir := ⟨[]⟩

/-- ico-crate `IconDir::add_entry`: append. -/
def IconDir.add_entry (d : IconDir) (e : IconDirEntry) : IconDir :=
  ⟨d.entries ++ [e]⟩

/-- The entry-building loop of `create_ico` (src/lib.rs lines 119-122). -/
def build_icon_dir (pngs : List Pixmap) : IconDir :=
  pngs.foldl
    (fun d png =>
      d.add_entry (IconDirEntry.encode (IconImage.from_rgba_data png.width png.height png.data)))
    IconDir.new

/-- ICONDIR header size in bytes. -/
def headerSize : Nat := 6

/-- ICONDIRENTRY size in bytes. -/
def entrySize : Nat := 16

/-- Stored width/height byte of a directory entry: truncated to 8 bits, so
an actual dimension of 256 is stored as 0 (the format convention). -/
def storedDimByte (d : Nat) : Nat := d % 256

/-- An independent reader's interpretation of a stored dimension byte:
0 means 256. -/
def decodeDimByte (b : Nat) : Nat := if b = 0 then 256 else b

/-- Little-endian u16 bytes (value truncated to 16 bits). -/
def u16le (n : Nat) : List Nat := [n % 256, n / 256 % 256]

/-- Little-endian u32 bytes (value truncated to 32 bits). -/
def u32le (n : Nat) : List Nat :=
  [n % 256, n / 256 % 256, n / 65536 % 256, n / 16777216 % 256]

/-- Modelled from the spec: the 16-byte ICONDIRENTRY record written for one
entry at a given payload offset. -/
def entryBytes (e : IconDirEntry) (offset : Nat) : List Nat :=
  [storedDimByte e.width, storedDimByte e.height, 0, 0]
    ++ u16le e.planes ++ u16le e.bpp ++ u32le e.data.length ++ u32le offset

/-- The running-offset pass over the entries: for each entry, the payload
offset assigned to it and its payload size.  The offset starts at the given
cursor and advances by each payload's size. -/
def entryTableAux (off : Nat) : List IconDirEntry → List (Nat × Nat)
  | [] => []
  | e :: rest => (off, e.data.length) :: entryTableAux (off + e.data.length) rest

/-- The (offset, size) table of a directory as serialized by
`IconDir::write`: the first payload starts right after the header and the
fixed-size entry table. -/
def IconDir.entryTable (d : IconDir) : List (Nat × Nat) :=
  entryTableAux (headerSize + entrySize * d.entries.length) d.entries

/-- Modelled from the spec: the 6-byte ICONDIR header — reserved = 0,
resource type = 1 (icon), entry count. -/
def headerBytes (d : IconDir) : List Nat :=
  u16le 0 ++ u16le 1 ++ u16le d.entries.length

/-- The serialized entry table, threading the running payload offset. -/
def dirBytesAux (off : Nat) : List IconDirEntry → List Nat
  | [] => []
  | e :: rest => entryBytes e off ++ dirBytesAux (off + e.data.length) rest

/-- All payload blocks, concatenated in entry order. -/
def payloadBytes (d : IconDir) : List Nat :=
  (d.entries.map IconDirEntry.data).flatten

/-- Modelled from the spec: ico-crate `IconDir::write` — header, then the
contiguous entry table, then the payload blocks, as one byte stream. -/
def IconDir.write (d : IconDir) : List Nat :=
  headerBytes d ++ dirBytesAux (headerSize + entrySize * d.entries.length) d.entries
    ++ payloadBytes d

/-- Insert a path into the directory list if it is not already present. -/
def insertPath (ds : List FilePath0) (p : FilePath0) : List FilePath0 :=
  if p ∈ ds then ds else ds ++ [p]

/-- All nonempty prefixes of a path: the ancestor chain ending at the path
itself. -/
def nonemptyInits (p : FilePath0) : List FilePath0 :=
  (List.range p.length).map (fun i => p.take (i + 1))

/-- `std::fs::create_dir_all`: create every missing ancestor of the path
(creating the empty path is a no-op, as in the standard library). -/
def create_dir_all (fs : FS) (p : FilePath0) : FS :=
  { fs with dirs := (nonemptyInits p).foldl insertPath fs.dirs }

/-- `create_ico` from src/lib.rs lines 116-130: build the icon directory
from the pixmaps, create the output path's parent directories when it has a
parent, then create the file and write the serialized directory to it. -/
def create_ico (fs : FS) (ico_path : FilePath0) (pngs : List Pixmap) :
    Outcome Unit × FS :=
  let icon_dir := build_icon_dir pngs
  let fs1 :=
    match ico_path.parent with
    | some p => create_dir_all fs p
    | none => fs
  (.ok (), fs1.writeFile ico_path icon_dir.write)

/-- `svg_to_ico` from src/lib.rs lines 72-92: read the SVG file, parse it
with the given DPI, rasterize every requested size (short-circuiting on
failure), and only then encode and write the ICO file. -/
def svg_to_ico (fs : FS) (svg_path : FilePath0) (svg_dpi : ℚ)
    (ico_path : FilePath0) (ico_entry_sizes : List Nat) : Outcome Unit × FS :=
  let opt : Options := ⟨svg_dpi⟩
  match fs.read svg_path with
  | none => (.err (.IoError .notFound), fs)
  | some file_content =>
    match Tree.from_data file_content opt with
    | none => (.err .ParseError, fs)
    | some svg =>
      match rasterizeAll svg ico_entry_sizes with
      | .ok images => create_ico fs ico_path images
      | .err e => (.err e, fs)
      | .panic m => (.panic m, fs)

/-! ### Concrete test fixtures (mirroring the repository's example scenes) -/

/-- The 48×24 landscape scene of examples/landscape.svg (content opaque). -/
def landscapeScene : Tree := ⟨⟨48, 24⟩, fun _ _ => 0⟩

/-- The 24×24 square scene of examples/example.svg (content opaque). -/
def squareScene : Tree := ⟨⟨24, 24⟩, fun _ _ => 0⟩

/-- A minimal 1×1 scene. -/
def unitScene : Tree := ⟨⟨1, 1⟩, fun _ _ => 0⟩

/-- The pixmap produced by rasterizing the landscape scene at height 400. -/
def landscapePix : Pixmap :=
  resvgRender landscapeScene
    (Transform.from_scale (((400 : Nat) : ℚ) / 48) (((400 : Nat) : ℚ) * 24 / 48 / 24))
    ⟨400, 200, List.replicate (400 * 200 * BYTES_PER_PIXEL) 0⟩

/-- The pixmap produced by rasterizing the 1×1 scene at height 1. -/
def unitPix : Pixmap :=
  resvgRender unitScene
    (Transform.from_scale (((1 : Nat) : ℚ) / 1) (((1 : Nat) : ℚ) * 1 / 1 / 1))
    ⟨1, 1, List.replicate (1 * 1 * BYTES_PER_PIXEL) 0⟩

/-! ### Helper lemmas about the rasterizer -/

theorem resvgRender_width (svg : Tree) (t : Transform) (p : Pixmap) :
    (resvgRender svg t p).width = p.width := rfl

theorem resvgRender_height (svg : Tree) (t : Transform) (p : Pixmap) :
    (resvgRender svg t p).height = p.height := rfl

theorem Size.from_wh_eq_some (w h : ℚ) (s : Size)
    (hs : Size.from_wh w h = some s) : s = ⟨w, h⟩ ∧ 0 < w ∧ 0 < h := by
  unfold Size.from_wh at hs
  split_ifs at hs with hc
  · injection hs with h1
    exact ⟨h1.symm, hc.1, hc.2⟩

theorem Size.from_wh_pos (w h : ℚ) (hw : 0 < w) (hh : 0 < h) :
    Size.from_wh w h = some ⟨w, h⟩ := by
  unfold Size.from_wh
  rw [if_pos ⟨hw, hh⟩]

theorem Pixmap.new_eq_some (w h : Nat) (pm : Pixmap)
    (hpm : Pixmap.new w h = some pm) :
    pm = ⟨w, h, List.replicate (w * h * BYTES_PER_PIXEL) 0⟩ := by
  unfold Pixmap.new at hpm
  split_ifs at hpm
  injection hpm with h1
  exact h1.symm

theorem Pixmap.new_of_le (w h : Nat) (hw : w ≠ 0) (hh : h ≠ 0)
    (hb : w * h * BYTES_PER_PIXEL ≤ u32Max) :
    Pixmap.new w h = some ⟨w, h, List.replicate (w * h * BYTES_PER_PIXEL) 0⟩ := by
  unfold Pixmap.new
  rw [if_neg (by simp [hw, hh]), if_neg (by omega)]

theorem scale_to_square_left (W H T : ℚ) (hH : 0 < H) (hT : 0 < T)
    (h : H ≤ W) : Size.scale_to ⟨W, H⟩ ⟨T, T⟩ = ⟨T, T * H / W⟩ := by
  unfold Size.scale_to
  have hrw : T ≤ T * W / H := by
    rw [le_div_iff₀ hH]
    exact mul_le_mul_of_nonneg_left h hT.le
  simp only [if_pos hrw]

theorem scale_to_square_right (W H T : ℚ) (hH : 0 < H)
    (hT : 0 < T) (h : W ≤ H) :
    Size.scale_to ⟨W, H⟩ ⟨T, T⟩ = ⟨T * W / H, T⟩ := by
  unfold Size.scale_to
  by_cases hrw : T ≤ T * W / H
  · have hle : T * W / H ≤ T := by
      rw [div_le_iff₀ hH]
      exact mul_le_mul_of_nonneg_left h hT.le
    have heq : T * W / H = T := le_antisymm hle hrw
    have hWH : W = H := by
      have h1 : T * W = T * H := by
        have := congrArg (fun x => x * H) heq
        simpa [div_mul_cancel₀, hH.ne'] using this
      exact mul_left_cancel₀ hT.ne' h1
    rw [if_pos hrw]
    simp [hWH, heq, hH.ne']
  · rw [if_neg hrw]

theorem roundToU32_natCast (n : Nat) (hn : n ≤ 65535) :
    roundToU32 (n : ℚ) = n := by
  unfold roundToU32
  have hfloor : ⌊(n : ℚ) + 1 / 2⌋ = (n : ℤ) := by
    rw [Int.floor_eq_iff]
    constructor
    · push_cast; linarith
    · push_cast; linarith
  rw [hfloor]
  simp only [Int.toNat_natCast]
  unfold u32Max
  omega

theorem roundToU32_eq_of_le (q : ℚ) (hq : q ≤ 65535) :
    roundToU32 q = Int.toNat ⌊q + 1 / 2⌋ := by
  unfold roundToU32
  have h2 : ⌊q + 1 / 2⌋ < (65536 : ℤ) := by
    rw [Int.floor_lt]
    push_cast
    linarith
  have h3 : Int.toNat ⌊q + 1 / 2⌋ ≤ 65535 := by omega
  unfold u32Max
  omega

theorem roundToU32_le_of_le (q : ℚ) (n : Nat) (hq : q ≤ (n : ℚ))
    (hn : n ≤ 65535) : roundToU32 q ≤ n := by
  have hn' : (n : ℚ) ≤ 65535 := by exact_mod_cast hn
  rw [roundToU32_eq_of_le q (le_trans hq hn')]
  have h2 : ⌊q + 1 / 2⌋ < (n : ℤ) + 1 := by
    rw [Int.floor_lt]
    push_cast
    linarith
  omega

theorem rasterize_eq_pos (svg : Tree) (T : Nat) (h0 : (0 : ℚ) < (T : ℚ)) :
    rasterize svg T =
      match Pixmap.new (svg.size.scale_to ⟨(T : ℚ), (T : ℚ)⟩).to_int_size.width
              (svg.size.scale_to ⟨(T : ℚ), (T : ℚ)⟩).to_int_size.height with
      | some pixmap =>
          .ok (resvgRender svg
            (Transform.from_scale
              ((svg.size.scale_to ⟨(T : ℚ), (T : ℚ)⟩).width / svg.size.width)
              ((svg.size.scale_to ⟨(T : ℚ), (T : ℚ)⟩).height / svg.size.height))
            pixmap)
      | none => .err .RasterizeError := by
  simp only [rasterize]
  rw [Size.from_wh_pos _ _ h0 h0]

/-- The dimensions of every successfully rasterized image: the scene is
scaled to fit within a T×T box preserving aspect ratio, each dimension
rounded to the nearest integer and clamped to at least 1. -/
theorem rasterize_ok_dims (svg : Tree) (T : Nat) (p : Pixmap)
    (hW : 0 < svg.size.width) (hH : 0 < svg.size.height)
    (hT : 1 ≤ T) (hT2 : T ≤ 65535)
    (hok : rasterize svg T = .ok p) :
    (svg.size.height ≤ svg.size.width →
      p.width = T ∧
      p.height = max 1 (Int.toNat ⌊(T : ℚ) * svg.size.height / svg.size.width + 1 / 2⌋)) ∧
    (svg.size.width ≤ svg.size.height →
      p.width = max 1 (Int.toNat ⌊(T : ℚ) * svg.size.width / svg.size.height + 1 / 2⌋) ∧
      p.height = T) := by
  obtain ⟨⟨W, H⟩, pf⟩ := svg
  dsimp only at hW hH ⊢
  have h0 : (0 : ℚ) < (T : ℚ) := by
    exact_mod_cast Nat.lt_of_lt_of_le Nat.zero_lt_one hT
  have hT65 : (T : ℚ) ≤ 65535 := by exact_mod_cast hT2
  rw [rasterize_eq_pos _ T h0] at hok
  have hmaxT : max 1 (roundToU32 ((T : Nat) : ℚ)) = T := by
    rw [roundToU32_natCast T hT2]
    omega
  constructor
  · intro hle
    rw [show (Tree.mk ⟨W, H⟩ pf).size = ⟨W, H⟩ from rfl,
      scale_to_square_left W H ((T : Nat) : ℚ) hH h0 hle] at hok
    have hq : (T : ℚ) * H / W ≤ ((T : Nat) : ℚ) := by
      rw [mul_div_assoc]
      exact mul_le_of_le_one_right h0.le ((div_le_one hW).mpr hle)
    dsimp only [Size.to_int_size] at hok
    split at hok
    · rename_i pm hpm
      simp only [Outcome.ok.injEq] at hok
      obtain rfl := Pixmap.new_eq_some _ _ _ hpm
      subst hok
      refine ⟨hmaxT, ?_⟩
      show max 1 (roundToU32 ((T : ℚ) * H / W)) = _
      rw [roundToU32_eq_of_le _ (le_trans hq hT65)]
    · simp at hok
  · intro hle
    rw [show (Tree.mk ⟨W, H⟩ pf).size = ⟨W, H⟩ from rfl,
      scale_to_square_right W H ((T : Nat) : ℚ) hH h0 hle] at hok
    have hq : (T : ℚ) * W / H ≤ ((T : Nat) : ℚ) := by
      rw [mul_div_assoc]
      exact mul_le_of_le_one_right h0.le ((div_le_one hH).mpr hle)
    dsimp only [Size.to_int_size] at hok
    split at hok
    · rename_i pm hpm
      simp only [Outcome.ok.injEq] at hok
      obtain rfl := Pixmap.new_eq_some _ _ _ hpm
      subst hok
      refine ⟨?_, hmaxT⟩
      show max 1 (roundToU32 ((T : ℚ) * W / H)) = _
      rw [roundToU32_eq_of_le _ (le_trans hq hT65)]
    · simp at hok

theorem landscape_rasterize_eq :
    rasterize landscapeScene 400 = .ok landscapePix := by
  rw [rasterize_eq_pos landscapeScene 400 (by norm_num)]
  rw [show landscapeScene.size = ⟨48, 24⟩ from rfl]
  rw [scale_to_square_left 48 24 ((400 : Nat) : ℚ) (by norm_num) (by norm_num) (by norm_num)]
  have hw : (Size.mk ((400 : Nat) : ℚ) (((400 : Nat) : ℚ) * 24 / 48)).to_int_size.width = 400 := by
    show max 1 (roundToU32 ((400 : Nat) : ℚ)) = 400
    rw [roundToU32_natCast 400 (by norm_num)]
    exact max_eq_right (by norm_num)
  have hh : (Size.mk ((400 : Nat) : ℚ) (((400 : Nat) : ℚ) * 24 / 48)).to_int_size.height = 200 := by
    show max 1 (roundToU32 (((400 : Nat) : ℚ) * 24 / 48)) = 200
    rw [show ((400 : Nat) : ℚ) * 24 / 48 = ((200 : Nat) : ℚ) by push_cast; norm_num]
    rw [roundToU32_natCast 200 (by norm_num)]
    exact max_eq_right (by norm_num)
  rw [hw, hh]
  rw [Pixmap.new_of_le 400 200 (by norm_num) (by norm_num)
    (by norm_num [u32Max, BYTES_PER_PIXEL])]
  rfl

theorem landscapePix_width : landscapePix.width = 400 := rfl

theorem landscapePix_height : landscapePix.height = 200 := rfl

theorem unit_rasterize_eq : rasterize unitScene 1 = .ok unitPix := by
  rw [rasterize_eq_pos unitScene 1 (by norm_num)]
  rw [show unitScene.size = ⟨1, 1⟩ from rfl]
  rw [scale_to_square_left 1 1 ((1 : Nat) : ℚ) (by norm_num) (by norm_num) (by norm_num)]
  have hw : (Size.mk ((1 : Nat) : ℚ) (((1 : Nat) : ℚ) * 1 / 1)).to_int_size.width = 1 := by
    show max 1 (roundToU32 ((1 : Nat) : ℚ)) = 1
    rw [roundToU32_natCast 1 (by norm_num)]
    exact max_eq_right (by norm_num)
  have hh : (Size.mk ((1 : Nat) : ℚ) (((1 : Nat) : ℚ) * 1 / 1)).to_int_size.height = 1 := by
    show max 1 (roundToU32 (((1 : Nat) : ℚ) * 1 / 1)) = 1
    rw [show ((1 : Nat) : ℚ) * 1 / 1 = ((1 : Nat) : ℚ) by push_cast; norm_num]
    rw [roundToU32_natCast 1 (by norm_num)]
    exact max_eq_right (by norm_num)
  rw [hw, hh]
  rw [Pixmap.new_of_le 1 1 (by norm_num) (by norm_num)
    (by norm_num [u32Max, BYTES_PER_PIXEL])]
  rfl

/-- Claim C1 (amended): for a scene of positive intrinsic size W×H and a
target height 1 ≤ T ≤ 65535, a successful rasterization scales the scene to
fit within a T×T box preserving aspect ratio: when W ≤ H the height is T
exactly and the width is round(W·T/H) (clamped to at least 1); when W ≥ H
the roles flip — the width is T exactly and the height is
round(H·T/W) (clamped to at least 1). -/
theorem rasterize_fits_square_box (svg : Tree) (T : Nat) (p : Pixmap)
    (hW : 0 < svg.size.width) (hH : 0 < svg.size.height)
    (hT : 1 ≤ T) (hT2 : T ≤ 65535)
    (hok : rasterize svg T = .ok p) :
    (svg.size.height ≤ svg.size.width →
      p.width = T ∧
      p.height = max 1 (Int.toNat ⌊(T : ℚ) * svg.size.height / svg.size.width + 1 / 2⌋)) ∧
    (svg.size.width ≤ svg.size.height →
      p.width = max 1 (Int.toNat ⌊(T : ℚ) * svg.size.width / svg.size.height + 1 / 2⌋) ∧
      p.height = T) :=
  rasterize_ok_dims svg T p hW hH hT hT2 hok

/-- Claim C1 (counterexample): on the 48×24 landscape scene at target
height 400 the code returns a 400×200 image, not the
round(W·T/H) = 800 wide, 400 high image the claim demands. -/
theorem rasterize_width_formula_fails_on_landscape :
    ∃ p, rasterize landscapeScene 400 = .ok p ∧
      ¬(p.width = Int.toNat ⌊(48 : ℚ) * 400 / 24 + 1 / 2⌋ ∧ p.height = 400) := by
  refine ⟨landscapePix, landscape_rasterize_eq, ?_⟩
  have h800 : ⌊(48 : ℚ) * 400 / 24 + 1 / 2⌋ = 800 := by
    rw [Int.floor_eq_iff]
    constructor
    · push_cast
      norm_num
    · push_cast
      norm_num
  rintro ⟨h, -⟩
  rw [landscapePix_width, h800] at h
  omega

/-- Claim C1 (witness): the amended statement instantiated on the 48×24
landscape scene at target height 400. -/
theorem rasterize_fits_square_box_witness :
    (0 : ℚ) < landscapeScene.size.width ∧ (0 : ℚ) < landscapeScene.size.height ∧
    rasterize landscapeScene 400 = .ok landscapePix ∧
    ((landscapeScene.size.height ≤ landscapeScene.size.width →
      landscapePix.width = 400 ∧
      landscapePix.height =
        max 1 (Int.toNat
          ⌊((400 : Nat) : ℚ) * landscapeScene.size.height / landscapeScene.size.width + 1 / 2⌋)) ∧
    (landscapeScene.size.width ≤ landscapeScene.size.height →
      landscapePix.width =
        max 1 (Int.toNat
          ⌊((400 : Nat) : ℚ) * landscapeScene.size.width / landscapeScene.size.height + 1 / 2⌋) ∧
      landscapePix.height = 400)) :=
  ⟨by norm_num [landscapeScene], by norm_num [landscapeScene], landscape_rasterize_eq,
    rasterize_fits_square_box landscapeScene 400 landscapePix
      (by norm_num [landscapeScene]) (by norm_num [landscapeScene])
      (by norm_num) (by norm_num) landscape_rasterize_eq⟩

/-- Claim C2: the 48×24 landscape scene rasterized at target height 400
yields an image of width 400 and height 200, matching the repository's own
regression test. -/
theorem rasterize_landscape_48x24_at_400 :
    ∃ p, rasterize landscapeScene 400 = .ok p ∧ p.width = 400 ∧ p.height = 200 :=
  ⟨landscapePix, landscape_rasterize_eq, landscapePix_width, landscapePix_height⟩

/-- Claim C4 (the code, not the claim): for a target height of 0 the code
does not return RasterizeError — it panics, because
`Size::from_wh(0, 0).expect("Unsigned values should always be valid")`
rejects the zero size before any pixel-buffer allocation is attempted. -/
theorem rasterize_zero_height_panics (svg : Tree) :
    rasterize svg 0 = .panic "Unsigned values should always be valid" := by
  simp only [rasterize]
  have h : ¬((0 : ℚ) < ((0 : Nat) : ℚ) ∧ (0 : ℚ) < ((0 : Nat) : ℚ)) := by norm_num
  unfold Size.from_wh
  rw [if_neg h]

/-- Claim C9: every image the rasterizer returns satisfies the byte-length
invariant pixels.length = width · height · 4. -/
theorem rasterize_byte_length_invariant (svg : Tree) (T : Nat) (p : Pixmap)
    (hok : rasterize svg T = .ok p) :
    p.data.length = p.width * p.height * BYTES_PER_PIXEL := by
  simp only [rasterize] at hok
  split at hok
  · exact absurd hok (by simp)
  · split at hok
    · rename_i pm hpm
      simp only [Outcome.ok.injEq] at hok
      obtain rfl := Pixmap.new_eq_some _ _ _ hpm
      subst hok
      simp [resvgRender]
    · exact absurd hok (by simp)

/-- Claim C9 (witness): the invariant instantiated on a concrete
rasterization. -/
theorem rasterize_byte_length_invariant_witness :
    rasterize unitScene 1 = .ok unitPix ∧
    unitPix.data.length = unitPix.width * unitPix.height * BYTES_PER_PIXEL :=
  ⟨unit_rasterize_eq, rasterize_byte_length_invariant unitScene 1 unitPix unit_rasterize_eq⟩

/-! ### The error taxonomy (claim C5) -/

theorem create_ico_fst (fs : FS) (p : FilePath0) (pngs : List Pixmap) :
    (create_ico fs p pngs).1 = .ok () := rfl

theorem rasterize_err_is_rasterizeError (svg : Tree) (T : Nat) (e : Error)
    (h : rasterize svg T = .err e) : e = .RasterizeError := by
  simp only [rasterize] at h
  split at h
  · exact absurd h (by simp)
  · split at h
    · exact absurd h (by simp)
    · simp only [Outcome.err.injEq] at h
      exact h.symm

theorem rasterizeAll_err_is_rasterizeError (svg : Tree) (sizes : List Nat) (e : Error)
    (h : rasterizeAll svg sizes = .err e) : e = .RasterizeError := by
  induction sizes with
  | nil => simp [rasterizeAll] at h
  | cons s rest ih =>
    simp only [rasterizeAll] at h
    split at h
    · split at h
      · exact absurd h (by simp)
      · rename_i e2 he2
        simp only [Outcome.err.injEq] at h
        subst h
        exact ih he2
      · exact absurd h (by simp)
    · rename_i e1 he1
      simp only [Outcome.err.injEq] at h
      subst h
      exact rasterize_err_is_rasterizeError svg s _ he1
    · exact absurd h (by simp)

/-- Claim C5 (counterexample): the public error type is not limited to the
three kinds IoError, ParseError and RasterizeError of the error taxonomy —
the `NulError` variant is a fourth inhabitant. -/
theorem error_enum_retains_nul_variant :
    ¬ (∀ e : Error, (∃ k, e = .IoError k) ∨ e = .ParseError ∨ e = .RasterizeError) := by
  intro h
  rcases h (.NulError ⟨0⟩) with ⟨k, hk⟩ | h1 | h1 <;> simp_all

/-- Claim C5 (amended): the public error type is a single sum type with
exactly four kinds — IoError, ParseError, RasterizeError, plus the retained
legacy NulError variant, which the source documents as "No longer used."
and which svg_to_ico indeed never returns. -/
theorem error_enum_four_kinds_nul_unused :
    (∀ e : Error, (∃ k, e = .IoError k) ∨ (∃ n, e = .NulError n) ∨
      e = .ParseError ∨ e = .RasterizeError) ∧
    (∀ (fs : FS) (sp : FilePath0) (dpi : ℚ) (op : FilePath0) (sizes : List Nat)
      (n : NulErrorData),
      (svg_to_ico fs sp dpi op sizes).1 ≠ .err (.NulError n)) := by
  constructor
  · intro e
    cases e with
    | IoError k => exact Or.inl ⟨k, rfl⟩
    | NulError n => exact Or.inr (Or.inl ⟨n, rfl⟩)
    | ParseError => exact Or.inr (Or.inr (Or.inl rfl))
    | RasterizeError => exact Or.inr (Or.inr (Or.inr rfl))
  · intro fs sp dpi op sizes n
    simp only [svg_to_ico]
    split
    · simp
    · split
      · simp
      · split
        · rw [create_ico_fst]
          simp
        · rename_i e he
          obtain rfl := rasterizeAll_err_is_rasterizeError _ _ _ he
          simp
        · simp

/-! ### The container directory (claims C6 and C7) -/

theorem build_icon_dir_entries (pngs : List Pixmap) :
    (build_icon_dir pngs).entries =
      pngs.map (fun png =>
        IconDirEntry.encode (IconImage.from_rgba_data png.width png.height png.data)) := by
  have h : ∀ (l : List Pixmap) (acc : List IconDirEntry),
      (l.foldl
        (fun (d : IconDir) (png : Pixmap) =>
          d.add_entry (IconDirEntry.encode (IconImage.from_rgba_data png.width png.height png.data)))
        (IconDir.mk acc)).entries
        = acc ++ l.map (fun png =>
            IconDirEntry.encode (IconImage.from_rgba_data png.width png.height png.data)) := by
    intro l
    induction l with
    | nil => intro acc; simp
    | cons p rest ih =>
      intro acc
      simp only [List.foldl_cons, List.map_cons]
      rw [show (IconDir.mk acc).add_entry
            (IconDirEntry.encode (IconImage.from_rgba_data p.width p.height p.data))
          = IconDir.mk (acc ++ [IconDirEntry.encode
              (IconImage.from_rgba_data p.width p.height p.data)]) from rfl]
      rw [ih]
      simp
  simpa [build_icon_dir, IconDir.new] using h pngs []

theorem entryTableAux_length (l : List IconDirEntry) :
    ∀ off, (entryTableAux off l).length = l.length := by
  induction l with
  | nil => intro off; rfl
  | cons e rest ih => intro off; simp [entryTableAux, ih]

theorem entryTableAux_chain (l : List IconDirEntry)
    (hpos : ∀ e ∈ l, 0 < e.data.length) :
    ∀ off, List.Chain' (fun a b => a.1 + a.2 ≤ b.1 ∧ a.1 < b.1) (entryTableAux off l) := by
  induction l with
  | nil => intro off; simp [entryTableAux]
  | cons e rest ih =>
    intro off
    cases rest with
    | nil => simp [entryTableAux]
    | cons e2 r2 =>
      show List.Chain' _ ((off, e.data.length) ::
        (off + e.data.length, e2.data.length) ::
          entryTableAux (off + e.data.length + e2.data.length) r2)
      refine List.Chain'.cons ⟨le_refl _, ?_⟩
        (ih (fun x hx => hpos x (List.mem_cons_of_mem _ hx)) (off + e.data.length))
      have := hpos e (by simp)
      omega

/-- Claim C6: for a directory built from N images, the entry count (both
the structural field and the count recorded in the serialized header)
equals N, and in the serialized (offset, size) table every consecutive pair
satisfies offset + size ≤ next offset; the offsets are strictly
increasing. -/
theorem ico_directory_integrity (pngs : List Pixmap) :
    (build_icon_dir pngs).entries.length = pngs.length ∧
    headerBytes (build_icon_dir pngs) = u16le 0 ++ u16le 1 ++ u16le pngs.length ∧
    (build_icon_dir pngs).entryTable.length = pngs.length ∧
    List.Chain' (fun a b => a.1 + a.2 ≤ b.1 ∧ a.1 < b.1)
      (build_icon_dir pngs).entryTable ∧
    List.Pairwise (fun a b => a.1 < b.1) (build_icon_dir pngs).entryTable := by
  have hlen : (build_icon_dir pngs).entries.length = pngs.length := by
    rw [build_icon_dir_entries]
    simp
  have hpos : ∀ e ∈ (build_icon_dir pngs).entries, 0 < e.data.length := by
    rw [build_icon_dir_entries]
    intro e he
    simp only [List.mem_map] at he
    obtain ⟨png, -, rfl⟩ := he
    simp [IconDirEntry.encode, encodePayload]
  have hchain := entryTableAux_chain _ hpos
    (headerSize + entrySize * (build_icon_dir pngs).entries.length)
  refine ⟨hlen, ?_, ?_, hchain, ?_⟩
  · rw [headerBytes, hlen]
  · rw [IconDir.entryTable, entryTableAux_length, hlen]
  · have hlt : List.Chain' (fun a b : Nat × Nat => a.1 < b.1)
        (build_icon_dir pngs).entryTable :=
      List.Chain'.imp (fun a b hab => hab.2) hchain
    haveI : IsTrans (Nat × Nat) (fun a b => a.1 < b.1) :=
      ⟨fun a b c h1 h2 => lt_trans h1 h2⟩
    exact List.chain'_iff_pairwise.mp hlt

theorem storedDim_roundtrip (w : Nat) (h1 : 1 ≤ w) (h2 : w ≤ 256) :
    decodeDimByte (storedDimByte w) = w := by
  unfold storedDimByte decodeDimByte
  rcases Nat.lt_or_ge w 256 with h | h
  · rw [Nat.mod_eq_of_lt h]
    split_ifs with h0
    · omega
    · rfl
  · have hw : w = 256 := by omega
    subst hw
    norm_num

/-- Claim C7: the directory's entries are exactly the per-image encodings
of the input images, in input order — one entry per image, duplicates and
arbitrary orders included, no deduplication — and an independent reader
decoding each entry's stored dimension bytes (0 meaning 256) recovers every
image's width and height in order, for the dimensions the ICO directory can
represent (1..256). -/
theorem ico_entry_order_preserved (pngs : List Pixmap)
    (hdims : ∀ png ∈ pngs,
      1 ≤ png.width ∧ png.width ≤ 256 ∧ 1 ≤ png.height ∧ png.height ≤ 256) :
    (build_icon_dir pngs).entries =
      pngs.map (fun png =>
        IconDirEntry.encode (IconImage.from_rgba_data png.width png.height png.data)) ∧
    (build_icon_dir pngs).entries.length = pngs.length ∧
    (build_icon_dir pngs).entries.map
        (fun e => (decodeDimByte (storedDimByte e.width), decodeDimByte (storedDimByte e.height)))
      = pngs.map (fun png => (png.width, png.height)) := by
  refine ⟨build_icon_dir_entries pngs, ?_, ?_⟩
  · rw [build_icon_dir_entries]
    simp
  · rw [build_icon_dir_entries, List.map_map]
    apply List.map_congr_left
    intro png hp
    obtain ⟨h1, h2, h3, h4⟩ := hdims png hp
    show (decodeDimByte (storedDimByte png.width), decodeDimByte (storedDimByte png.height))
      = (png.width, png.height)
    rw [storedDim_roundtrip _ h1 h2, storedDim_roundtrip _ h3 h4]

/-- A 1×1 image. -/
def pixA : Pixmap := ⟨1, 1, List.replicate 4 0⟩

/-- A 2×1 image. -/
def pixB : Pixmap := ⟨2, 1, List.replicate 8 1⟩

/-- A 256×2 image, exercising the 256-stored-as-0 convention. -/
def pixC : Pixmap := ⟨256, 2, List.replicate 2048 3⟩

/-- Claim C7 (witness): order preservation instantiated on the concrete
image list [A, B, C]. -/
theorem ico_entry_order_preserved_witness :
    (∀ png ∈ [pixA, pixB, pixC],
      1 ≤ png.width ∧ png.width ≤ 256 ∧ 1 ≤ png.height ∧ png.height ≤ 256) ∧
    ((build_icon_dir [pixA, pixB, pixC]).entries =
      [pixA, pixB, pixC].map (fun png =>
        IconDirEntry.encode (IconImage.from_rgba_data png.width png.height png.data)) ∧
    (build_icon_dir [pixA, pixB, pixC]).entries.length = 3 ∧
    (build_icon_dir [pixA, pixB, pixC]).entries.map
        (fun e => (decodeDimByte (storedDimByte e.width), decodeDimByte (storedDimByte e.height)))
      = [pixA, pixB, pixC].map (fun png => (png.width, png.height))) :=
  ⟨by decide, ico_entry_order_preserved [pixA, pixB, pixC] (by decide)⟩

/-! ### Abort-before-write (claim C3) -/

theorem pixmap_new_none_of_large (w h : Nat) (hw : w ≠ 0) (hh : h ≠ 0)
    (hb : u32Max < w * h * BYTES_PER_PIXEL) : Pixmap.new w h = none := by
  unfold Pixmap.new
  rw [if_neg (by simp [hw, hh]), if_pos hb]

/-- The scene parsed from the two-byte content [24, 24]: a 24×24 square. -/
def parsedSquare : Tree :=
  ⟨⟨((24 : Nat) : ℚ), ((24 : Nat) : ℚ)⟩, fun _ i => List.getD [] i 0⟩

theorem parsedSquare_eq : Tree.from_data [24, 24] ⟨96⟩ = some parsedSquare := by rfl

/-- On the 24×24 scene a target height of 65535 yields a 65535×65535
buffer request, whose byte length overflows the allocator's 32-bit bound:
the rasterizer reports RasterizeError. -/
theorem rasterize_overflow_err :
    rasterize parsedSquare 65535 = .err .RasterizeError := by
  rw [rasterize_eq_pos parsedSquare 65535 (by norm_num)]
  rw [show parsedSquare.size = ⟨((24 : Nat) : ℚ), ((24 : Nat) : ℚ)⟩ from rfl]
  rw [scale_to_square_left ((24 : Nat) : ℚ) ((24 : Nat) : ℚ) ((65535 : Nat) : ℚ)
    (by norm_num) (by norm_num) (by norm_num)]
  have hw : (Size.mk ((65535 : Nat) : ℚ)
      (((65535 : Nat) : ℚ) * ((24 : Nat) : ℚ) / ((24 : Nat) : ℚ))).to_int_size.width = 65535 := by
    show max 1 (roundToU32 ((65535 : Nat) : ℚ)) = 65535
    rw [roundToU32_natCast 65535 (by norm_num)]
    exact max_eq_right (by norm_num)
  have hh : (Size.mk ((65535 : Nat) : ℚ)
      (((65535 : Nat) : ℚ) * ((24 : Nat) : ℚ) / ((24 : Nat) : ℚ))).to_int_size.height = 65535 := by
    show max 1 (roundToU32 (((65535 : Nat) : ℚ) * ((24 : Nat) : ℚ) / ((24 : Nat) : ℚ))) = 65535
    rw [show ((65535 : Nat) : ℚ) * ((24 : Nat) : ℚ) / ((24 : Nat) : ℚ) = ((65535 : Nat) : ℚ) by
      push_cast
      norm_num]
    rw [roundToU32_natCast 65535 (by norm_num)]
    exact max_eq_right (by norm_num)
  rw [hw, hh, pixmap_new_none_of_large 65535 65535 (by norm_num) (by norm_num)
    (by norm_num [u32Max, BYTES_PER_PIXEL])]

theorem rasterizeAll_overflow_err :
    rasterizeAll parsedSquare [65535] = .err .RasterizeError := by
  simp [rasterizeAll, rasterize_overflow_err]

/-- Claim C3: when the rasterization pass over the requested sizes fails
with an error, svg_to_ico returns exactly that error and the file system is
left untouched — no output file is created or modified, no directory is
created, nothing partial is written. -/
theorem svg_to_ico_aborts_on_rasterize_error (fs : FS) (svg_path : FilePath0)
    (dpi : ℚ) (ico_path : FilePath0) (sizes : List Nat)
    (content : List Nat) (svg : Tree) (e : Error)
    (hread : fs.read svg_path = some content)
    (hparse : Tree.from_data content ⟨dpi⟩ = some svg)
    (herr : rasterizeAll svg sizes = .err e) :
    svg_to_ico fs svg_path dpi ico_path sizes = (.err e, fs) := by
  simp only [svg_to_ico, hread, hparse, herr]

/-- The file system holding only the two-byte SVG file. -/
def fsIn : FS := ⟨[], [(["icon.svg"], [24, 24])]⟩

/-- Claim C3 (witness): the abort instantiated on a concrete conversion
whose single requested size 65535 fails to rasterize. -/
theorem svg_to_ico_aborts_witness :
    FS.read fsIn ["icon.svg"] = some [24, 24] ∧
    Tree.from_data [24, 24] ⟨96⟩ = some parsedSquare ∧
    rasterizeAll parsedSquare [65535] = .err .RasterizeError ∧
    svg_to_ico fsIn ["icon.svg"] 96 ["out", "icon.ico"] [65535]
      = (.err .RasterizeError, fsIn) :=
  ⟨by rfl, parsedSquare_eq, rasterizeAll_overflow_err,
    svg_to_ico_aborts_on_rasterize_error fsIn ["icon.svg"] 96 ["out", "icon.ico"] [65535]
      [24, 24] parsedSquare .RasterizeError (by rfl) parsedSquare_eq rasterizeAll_overflow_err⟩

/-! ### Parent-directory creation (claim C8) -/

theorem insertPath_mem (ds : List FilePath0) (p q : FilePath0) (h : q ∈ ds) :
    q ∈ insertPath ds p := by
  unfold insertPath
  split_ifs
  · exact h
  · simp [h]

theorem insertPath_self (ds : List FilePath0) (p : FilePath0) : p ∈ insertPath ds p := by
  unfold insertPath
  split_ifs with h
  · exact h
  · simp

theorem insertPath_of_mem (ds : List FilePath0) (p : FilePath0) (h : p ∈ ds) :
    insertPath ds p = ds := if_pos h

theorem foldl_insertPath_mem (l : List FilePath0) :
    ∀ (ds : List FilePath0) (q : FilePath0), q ∈ ds ∨ q ∈ l → q ∈ l.foldl insertPath ds := by
  induction l with
  | nil =>
    intro ds q h
    rcases h with h | h
    · exact h
    · simp at h
  | cons p rest ih =>
    intro ds q h
    simp only [List.foldl_cons]
    rcases h with h | h
    · exact ih _ _ (Or.inl (insertPath_mem _ _ _ h))
    · rcases List.mem_cons.mp h with rfl | h2
      · exact ih _ _ (Or.inl (insertPath_self _ _))
      · exact ih _ _ (Or.inr h2)

theorem foldl_insertPath_of_subset (l : List FilePath0) :
    ∀ ds : List FilePath0, (∀ q ∈ l, q ∈ ds) → l.foldl insertPath ds = ds := by
  induction l with
  | nil => intro ds _; rfl
  | cons p rest ih =>
    intro ds h
    simp only [List.foldl_cons]
    rw [insertPath_of_mem ds p (h p (by simp))]
    exact ih ds (fun q hq => h q (by simp [hq]))

theorem create_dir_all_idem (fs : FS) (p : FilePath0) :
    create_dir_all (create_dir_all fs p) p = create_dir_all fs p := by
  unfold create_dir_all
  congr 1
  exact foldl_insertPath_of_subset _ _ (fun q hq => foldl_insertPath_mem _ _ _ (Or.inr hq))

/-- Claim C8: when the output path has a parent, create_ico creates the
parent's whole (previously missing) directory chain before the file is
written; directory creation is idempotent; and the operation succeeds with
the same status and the same resulting file table whether or not the
parent directories already existed. -/
theorem create_ico_parent_dirs (fs fs2 : FS) (ico_path par : FilePath0)
    (pngs : List Pixmap)
    (hpar : ico_path.parent = some par) (hfiles : fs.files = fs2.files) :
    nonemptyInits par ⊆ ((create_ico fs ico_path pngs).2).dirs ∧
    create_dir_all (create_dir_all fs par) par = create_dir_all fs par ∧
    (create_ico fs ico_path pngs).1 = .ok () ∧
    (create_ico fs ico_path pngs).1 = (create_ico fs2 ico_path pngs).1 ∧
    ((create_ico fs ico_path pngs).2).files = ((create_ico fs2 ico_path pngs).2).files := by
  refine ⟨?_, create_dir_all_idem fs par, rfl, rfl, ?_⟩
  · intro q hq
    simp only [create_ico, hpar, FS.writeFile, create_dir_all]
    exact foldl_insertPath_mem _ _ _ (Or.inr hq)
  · simp only [create_ico, hpar, FS.writeFile, create_dir_all]
    rw [hfiles]

/-- A file system in which the parent directory already exists. -/
def fsWithParent : FS := ⟨[["out"]], []⟩

/-- A file system in which the parent directory is missing. -/
def fsNoParent : FS := ⟨[], []⟩

/-- Claim C8 (witness): the statement instantiated on a concrete output
path, once with the parent present and once with it missing. -/
theorem create_ico_parent_dirs_witness :
    FilePath0.parent ["out", "icon.ico"] = some ["out"] ∧
    fsWithParent.files = fsNoParent.files ∧
    (nonemptyInits ["out"] ⊆ ((create_ico fsWithParent ["out", "icon.ico"] [pixA]).2).dirs ∧
    create_dir_all (create_dir_all fsWithParent ["out"]) ["out"]
      = create_dir_all fsWithParent ["out"] ∧
    (create_ico fsWithParent ["out", "icon.ico"] [pixA]).1 = .ok () ∧
    (create_ico fsWithParent ["out", "icon.ico"] [pixA]).1
      = (create_ico fsNoParent ["out", "icon.ico"] [pixA]).1 ∧
    ((create_ico fsWithParent ["out", "icon.ico"] [pixA]).2).files
      = ((create_ico fsNoParent ["out", "icon.ico"] [pixA]).2).files) :=
  ⟨rfl, rfl,
    create_ico_parent_dirs fsWithParent fsNoParent ["out", "icon.ico"] ["out"] [pixA] rfl rfl⟩

/-! ### Determinism (claim C10) -/

theorem read_writeFile_self (fs : FS) (p : FilePath0) (c : List Nat) :
    (fs.writeFile p c).read p = some c := by
  unfold FS.writeFile FS.read
  simp

/-- Claim C10: svg_to_ico is a pure function of the SVG file content, the
DPI and the size list — two invocations reading identical content produce
the same status and, on success, identical ICO byte streams at their
respective output paths, independently of everything else in the file
system and of the path names. -/
theorem svg_to_ico_deterministic (fs1 fs2 : FS) (p1 p2 o1 o2 : FilePath0)
    (dpi : ℚ) (sizes : List Nat)
    (h : fs1.read p1 = fs2.read p2) :
    (svg_to_ico fs1 p1 dpi o1 sizes).1 = (svg_to_ico fs2 p2 dpi o2 sizes).1 ∧
    ((svg_to_ico fs1 p1 dpi o1 sizes).1 = .ok () →
      ((svg_to_ico fs1 p1 dpi o1 sizes).2).read o1 =
      ((svg_to_ico fs2 p2 dpi o2 sizes).2).read o2) := by
  rcases hc : fs1.read p1 with _ | content
  · rw [hc] at h
    simp only [svg_to_ico, hc, h.symm]
    simp
  · rw [hc] at h
    simp only [svg_to_ico, hc, h.symm]
    rcases hp : Tree.from_data content ⟨dpi⟩ with _ | svg
    · simp
    · rcases hr : rasterizeAll svg sizes with imgs | e | m
      · simp only [hr, create_ico]
        refine ⟨trivial, ?_⟩
        intro _
        rw [read_writeFile_self, read_writeFile_self]
      · simp [hr]
      · simp [hr]

/-- A file system holding the one-pixel SVG content at one path. -/
def fsLeft : FS := ⟨[], [(["a.svg"], [1, 1])]⟩

/-- A different file system holding the same content at another path,
among unrelated files. -/
def fsRight : FS := ⟨[["x"]], [(["b.svg"], [1, 1]), (["c.txt"], [9])]⟩

/-- Claim C10 (witness): determinism instantiated on two concrete file
systems holding the same SVG content at different paths. -/
theorem svg_to_ico_deterministic_witness :
    FS.read fsLeft ["a.svg"] = FS.read fsRight ["b.svg"] ∧
    ((svg_to_ico fsLeft ["a.svg"] 96 ["o1.ico"] [1]).1
      = (svg_to_ico fsRight ["b.svg"] 96 ["d", "o2.ico"] [1]).1 ∧
    ((svg_to_ico fsLeft ["a.svg"] 96 ["o1.ico"] [1]).1 = .ok () →
      ((svg_to_ico fsLeft ["a.svg"] 96 ["o1.ico"] [1]).2).read ["o1.ico"] =
      ((svg_to_ico fsRight ["b.svg"] 96 ["d", "o2.ico"] [1]).2).read ["d", "o2.ico"])) :=
  ⟨by rfl,
    svg_to_ico_deterministic fsLeft fsRight ["a.svg"] ["b.svg"] ["o1.ico"] ["d", "o2.ico"]
      96 [1] (by rfl)⟩

end SvgToIco
